import Mathlib

/-!
Verification of the execution core of the wollok-ts interpreter
(`src/interpreter.ts`): a shallow embedding of its data model and of the
`step` executor, the `Operations` heap/stack primitives, the interruption
mechanism, `cloneEvaluation` and `buildEvaluationFor`, together with
theorems settling the specification's claims about them.

Modelling conventions:
* JS strings are `String`; the heap, locals and field maps (JS objects
  keyed by strings) are association lists with JS object-update
  semantics (replace the value of an existing key in place, append new
  keys at the end).
* JS arrays used as stacks (`operandStack`, `frameStack`, pushed/popped
  at the end) are Lean lists with the *head* as the top of the stack,
  so JS `last`/`push`/`pop` become `head`/`cons`/`uncons`, and a JS
  `[...xs].reverse()` traversal from the top is a plain traversal.
* JS number payloads are `ℚ`; `uuid()` is a per-evaluation counter
  (`nextId`), which the spec's design notes sanction ("a monotonically
  increasing counter; uniqueness within an evaluation is the only
  requirement").
* Host-level failures (`throw Failure(...)`) are `Except.error` results.
* The `Environment` and the query helpers of `utils.ts` / `model.ts`
  are not part of the sources; they are modelled from the spec (§6) as
  a structure of abstract query functions, parameterized by an abstract
  type `β` of AST bodies/sentences with a compilation function
  `compile : β → List Instruction` (the claims under verification never
  inspect the result of `compile`, only where the step executor places
  it).
-/

namespace Wollok

/-- Heap identifiers (source: `Id<'Linked'>`, a string). -/
abbrev Id := String

/-- Names of modules, messages, locals and fields (source: `Name`). -/
abbrev Name := String

/-- Source: `type Interruption = 'return' | 'exception' | 'result'`.
The constructors `ret`, `exc`, `res` stand for the three string
literals, in that order. -/
inductive Interruption
  | ret
  | exc
  | res
deriving DecidableEq

/-- JS truthiness of an optional id: `undefined` and the empty string
are falsy (the source tests ids with `!value` and `find(it => !!it)`). -/
def truthy : Option Id → Option Id
  | some s => if s = "" then none else some s
  | none => none

/-- Association-list lookup, modelling JS object property access. -/
def assocGet {α : Type} : List (Name × α) → Name → Option α
  | [], _ => none
  | (k, v) :: rest, n => if k = n then some v else assocGet rest n

/-- Association-list update, modelling JS object property assignment:
an existing key keeps its position, a new key is appended. -/
def assocSet {α : Type} : List (Name × α) → Name → α → List (Name × α)
  | [], n, v => [(n, v)]
  | (k, w) :: rest, n, v =>
    if k = n then (n, v) :: rest else (k, w) :: assocSet rest n v

/-- Key-presence test, modelling the JS `name in locals` check. -/
def assocHas {α : Type} : List (Name × α) → Name → Bool
  | [], _ => false
  | (k, _) :: rest, n => if k = n then true else assocHas rest n

/-- Source: `interface Locals { [name: string]: Id }`. -/
abbrev Locals := List (Name × Id)

/-- Primitive payloads stored in `RuntimeObject.innerValue` (the source
types it `any`; the values actually stored are JS numbers, strings,
booleans, arrays of ids, and `null`). -/
inductive InnerValue
  | num (value : ℚ)
  | str (value : String)
  | bool (value : Bool)
  | list (value : List Id)
  | null
deriving DecidableEq

/-- Source: `interface RuntimeObject`. -/
structure RuntimeObject where
  id : Id
  module : Name
  fields : Locals
  innerValue : Option InnerValue
deriving DecidableEq

/-- Source: `type Instruction` (a tagged union). `CONDITIONAL_JUMP`'s
`count` is an `Int` because the source checks `count < 0`. -/
inductive Instruction
  | LOAD (name : Name)
  | STORE (name : Name) (lookup : Bool)
  | PUSH (id : Id)
  | GET (name : Name)
  | SET (name : Name)
  | SWAP
  | INSTANTIATE (module : Name) (innerValue : Option InnerValue)
  | INHERITS (module : Name)
  | CONDITIONAL_JUMP (count : Int)
  | CALL (message : Name) (arity : Nat) (lookupStart : Option Name)
  | INIT (arity : Nat) (lookupStart : Name) (initFields : Bool)
  | IF_THEN_ELSE (thenHandler elseHandler : List Instruction)
  | TRY_CATCH_ALWAYS (body catchHandler alwaysHandler : List Instruction)
  | INTERRUPT (interruption : Interruption)
  | RESUME_INTERRUPTION

/-- Source: `interface Frame`. The operand stack's head is its top. -/
structure Frame where
  instructions : List Instruction
  nextInstruction : Nat
  locals : Locals
  operandStack : List Id
  resume : List Interruption

/-- Source: `interface Evaluation`. The frame stack's head is its top
(the innermost call). The immutable `environment` is passed to `step`
as a separate parameter instead of being stored; `nextId` is the state
of the fresh-id generator standing for `uuid()`. -/
structure Evaluation where
  frameStack : List Frame
  instances : List (Id × RuntimeObject)
  nextId : Nat

def NULL_ID : Id := "null"
def VOID_ID : Id := "void"
def TRUE_ID : Id := "true"
def FALSE_ID : Id := "false"

/-- The fresh id produced by the `n`-th call to `uuid()`. -/
def freshId (n : Nat) : Id := "uuid-" ++ toString n

/-- Concatenation of per-element lists (ramda's `chain`, aliased
`flatMap` in the source). -/
def flatMapL {α γ : Type} (f : α → List γ) : List α → List γ
  | [] => []
  | a :: rest => f a ++ flatMapL f rest

/-- Ramda's `zipObj`: build an object from pairwise keys and values,
truncating to the shorter list, later duplicate keys overwriting. -/
def zipObj (ks : List Name) (vs : List Id) : Locals :=
  (List.zip ks vs).foldl (fun acc kv => assocSet acc kv.1 kv.2) []

/-- Modelled from the spec: a formal parameter of a method or
constructor (`model.ts` is not part of the sources; §4.3). -/
structure Parameter where
  name : Name
  isVarArg : Bool

/-- Modelled from the spec: the method data the step executor consumes
(`model.ts` is not part of the sources; §4.3, §6). The body is an
abstract AST value of type `β` (`none` for abstract methods). -/
structure Method (β : Type) where
  name : Name
  parameters : List Parameter
  isNative : Bool
  body : Option β

/-- Modelled from the spec: a constructor together with its `baseCall`
(`model.ts` is not part of the sources; §4.4). -/
structure Constructor (β : Type) where
  parameters : List Parameter
  baseCallArgs : List β
  callsSuper : Bool
  body : β

/-- Modelled from the spec: a field declaration with its initializer
(`model.ts` is not part of the sources; §4.4 step 1). -/
structure FieldDecl (β : Type) where
  name : Name
  value : β

/-- Modelled from the spec: the immutable linked environment together
with the query helpers of `utils.ts` (not part of the sources; §6).
Classes are given by fully qualified name throughout. `hierarchy c`
lists the classes from `c` itself up to the root; `classFields c`
lists the `Field` members declared by `c` itself in declaration order;
`compile` is the compiler of `interpreter.ts` viewed abstractly on an
abstract type `β` of AST sentences and bodies (the claims never
inspect compiled code, only where the step executor places it). -/
structure Env (β : Type) where
  hierarchy : Name → List Name
  superclass : Name → Option Name
  inherits : Name → Name → Bool
  methodLookup : Name → Nat → Name → Option (Method β)
  constructorLookup : Nat → Name → Option (Constructor β)
  classFields : Name → List (FieldDecl β)
  compile : β → List Instruction

/-- Host-level failures: the source's `throw Failure(...)` sites plus
the JS runtime errors its non-null assertions can produce. -/
inductive VMErr
  | poppedEmpty
  | undefinedInstance (id : Id)
  | undefinedField (moduleName fieldName : Name)
  | loadMissing (name : Name)
  | invalidJump (count : Int)
  | unhandled (interruption : Interruption) (valueId : Id)
  | missingConstructor (arity : Nat) (lookupStart : Name)
  | cannotInfer
  | endOfFrameStack
  | endOfInstructions
  | missingNative
  | missingBody
  | badInnerValue
deriving DecidableEq

/-- Modelled from the spec: the external natives registry (§6), keyed
here by the resolved method; `none` models a failing `nativeLookup`.
A native receives the receiver, the argument objects (absent heap
entries included) and the evaluation as mutated by the pops, and
returns the mutated evaluation or a host failure. -/
def Natives (β : Type) : Type :=
  Method β → Option (RuntimeObject → List (Option RuntimeObject) →
    Evaluation → Except VMErr Evaluation)

/-- ECMAScript `Number.prototype.toFixed(4)` (composed with the
`Number(...)` re-parse) on an exact rational: a negative argument has
its sign split off, and the magnitude is rounded to the integer `n`
with `n / 10^4` closest to it, ties going to the larger `n`. -/
def jsToFixed4 (q : ℚ) : ℚ :=
  if q < 0 then -(((⌊-q * 10000 + 1 / 2⌋ : ℤ) : ℚ) / 10000)
  else ((⌊q * 10000 + 1 / 2⌋ : ℤ) : ℚ) / 10000

/-- Source: `Operations.popOperand`. JS `pop()` yields `undefined` on
an empty array, and the `!response` check also rejects an empty-string
id. -/
def popOperand : List Id → Except VMErr (Id × List Id)
  | [] => .error .poppedEmpty
  | v :: rest => if v = "" then .error .poppedEmpty else .ok (v, rest)

/-- Source: `Array.from({ length: n }, popOperand)`: `n` sequential
pops, collected in pop order. -/
def popOperands : Nat → List Id → Except VMErr (List Id × List Id)
  | 0, s => .ok ([], s)
  | n + 1, s =>
    match popOperand s with
    | .error e => .error e
    | .ok (v, s₁) =>
      match popOperands n s₁ with
      | .error e => .error e
      | .ok (vs, s₂) => .ok (v :: vs, s₂)

/-- Source: `Operations.getInstance`. -/
def getInstance (instances : List (Id × RuntimeObject)) (id : Id) :
    Except VMErr RuntimeObject :=
  match assocGet instances id with
  | none => .error (.undefinedInstance id)
  | some o => .ok o

/-- Source: `Operations.addInstance`: allocate a fresh id; a
`wollok.lang.Number` payload is rounded via
`Number(innerValue.toFixed(4))` (a JS `TypeError` — here
`badInnerValue` — when the payload is not a number). -/
def addInstance (module : Name) (innerValue : Option InnerValue)
    (E : Evaluation) : Except VMErr (Id × Evaluation) :=
  let id := freshId E.nextId
  if module = "wollok.lang.Number" then
    match innerValue with
    | some (.num q) =>
      .ok (id, { E with
        instances := assocSet E.instances id
          ⟨id, module, [], some (.num (jsToFixed4 q))⟩,
        nextId := E.nextId + 1 })
    | _ => .error .badInnerValue
  else
    .ok (id, { E with
      instances := assocSet E.instances id ⟨id, module, [], innerValue⟩,
      nextId := E.nextId + 1 })

/-- The tail of `interrupt`'s unwinding loop: under the already-popped
current frame, find the first frame that resumes `kind`, dropping the
frames above it. -/
def unwindTo (kind : Interruption) : List Frame → Option (Frame × List Frame)
  | [] => none
  | f :: fs => if f.resume.contains kind then some (f, fs) else unwindTo kind fs

/-- The failure produced by an unhandled interruption: for an
`exception` the source first reads the value (and, if truthy, its
`message` field) for logging, so those `getInstance` reads can fail
first. -/
def unhandledFailure (kind : Interruption) (valueId : Id) (E : Evaluation) :
    VMErr :=
  if kind = .exc then
    match getInstance E.instances valueId with
    | .error e => e
    | .ok v =>
      match truthy (assocGet v.fields "message") with
      | some mid =>
        match getInstance E.instances mid with
        | .error e => e
        | .ok _ => .unhandled kind valueId
      | none => .unhandled kind valueId
  else .unhandled kind valueId

/-- Source: `Operations.interrupt`: pop the current frame, keep popping
until a frame resumes `kind`, consume `kind` from that frame's resume
set and push `valueId` onto its operand stack. An exhausted stack is
the unhandled-interruption failure of `unhandledFailure`. -/
def interrupt (kind : Interruption) (valueId : Id) (E : Evaluation) :
    Except VMErr Evaluation :=
  match E.frameStack with
  | [] => .error (unhandledFailure kind valueId E)
  | _ :: rest =>
    match unwindTo kind rest with
    | none => .error (unhandledFailure kind valueId E)
    | some (f, fsBelow) =>
      .ok { E with frameStack :=
        { f with resume := f.resume.filter (fun k => k != kind),
                 operandStack := valueId :: f.operandStack } :: fsBelow }

/-- Source (`LOAD` case):
`frameStack.map(({ locals }) => locals[name]).reverse().find(it => !!it)`
— the innermost truthy binding of `name`, falsy bindings skipped. -/
def findLoad (name : Name) : List Frame → Option Id
  | [] => none
  | f :: fs =>
    match truthy (assocGet f.locals name) with
    | some v => some v
    | none => findLoad name fs

/-- Source (`STORE` case): index, from the top of the stack, of the
first frame whose locals have `name` as a key (the `name in locals`
test). -/
def findStoreIdx (name : Name) : List Frame → Option Nat
  | [] => none
  | f :: fs =>
    if assocHas f.locals name then some 0
    else (findStoreIdx name fs).map (· + 1)

/-- Update the frame at the given depth (0 = top). -/
def modifyFrame (g : Frame → Frame) : Nat → List Frame → List Frame
  | _, [] => []
  | 0, f :: fs => g f :: fs
  | n + 1, f :: fs => f :: modifyFrame g n fs

/-- Source (`CALL` case): the class where method lookup starts. With an
explicit `lookupStart` (a super-call) it is the class of the receiver's
hierarchy immediately above `lookupStart` (`findIndex` yields `-1` when
absent, so the hierarchy's head is then used; past the top of the
hierarchy there is no class). -/
def callLookupStart {β : Type} (env : Env β) (selfModule : Name) :
    Option Name → Option Name
  | some ls =>
    let own := env.hierarchy selfModule
    match own.findIdx? (fun fqn => fqn == ls) with
    | some i => own.get? (i + 1)
    | none => own.get? 0
  | none => some selfModule

/-- Source (`CALL` case): the resolved method; `none` both when lookup
finds nothing and when a super-call starts past the top of the
hierarchy (the spec: "there is no next class and dispatch fails to
find a method"). -/
def callMethod {β : Type} (env : Env β) (selfModule message : Name)
    (arity : Nat) (lookupStart : Option Name) : Option (Method β) :=
  match callLookupStart env selfModule lookupStart with
  | some s => env.methodLookup message arity s
  | none => none

/-- Source: `step(natives)(evaluation)` — execute one instruction of
the top frame. The program counter is incremented before the
instruction's effect, as in the source. -/
def step {β : Type} (env : Env β) (natives : Natives β) (E : Evaluation) :
    Except VMErr Evaluation :=
  match E.frameStack with
  | [] => .error .endOfFrameStack
  | cf₀ :: below =>
    match cf₀.instructions.get? cf₀.nextInstruction with
    | none => .error .endOfInstructions
    | some instr =>
      let cf := { cf₀ with nextInstruction := cf₀.nextInstruction + 1 }
      match instr with
      | .LOAD name =>
        match findLoad name (cf :: below) with
        | none => .error (.loadMissing name)
        | some v =>
          .ok { E with frameStack :=
            { cf with operandStack := v :: cf.operandStack } :: below }
      | .STORE name lookup =>
        match popOperand cf.operandStack with
        | .error e => .error e
        | .ok (valueId, s) =>
          let fs := { cf with operandStack := s } :: below
          let setHere := fun (f : Frame) =>
            { f with locals := assocSet f.locals name valueId }
          match lookup, findStoreIdx name fs with
          | true, some i => .ok { E with frameStack := modifyFrame setHere i fs }
          | true, none => .ok { E with frameStack := modifyFrame setHere 0 fs }
          | false, _ => .ok { E with frameStack := modifyFrame setHere 0 fs }
      | .PUSH id =>
        .ok { E with frameStack :=
          { cf with operandStack := id :: cf.operandStack } :: below }
      | .GET name =>
        match popOperand cf.operandStack with
        | .error e => .error e
        | .ok (selfId, s) =>
          match getInstance E.instances selfId with
          | .error e => .error e
          | .ok self =>
            match truthy (assocGet self.fields name) with
            | none => .error (.undefinedField self.module name)
            | some v =>
              .ok { E with frameStack :=
                { cf with operandStack := v :: s } :: below }
      | .SET name =>
        match popOperand cf.operandStack with
        | .error e => .error e
        | .ok (valueId, s₁) =>
          match popOperand s₁ with
          | .error e => .error e
          | .ok (selfId, s₂) =>
            match getInstance E.instances selfId with
            | .error e => .error e
            | .ok self =>
              .ok { E with
                instances := assocSet E.instances selfId
                  { self with fields := assocSet self.fields name valueId },
                frameStack := { cf with operandStack := s₂ } :: below }
      | .SWAP =>
        match popOperand cf.operandStack with
        | .error e => .error e
        | .ok (a, s₁) =>
          match popOperand s₁ with
          | .error e => .error e
          | .ok (b, s₂) =>
            .ok { E with frameStack :=
              { cf with operandStack := b :: a :: s₂ } :: below }
      | .INSTANTIATE moduleName innerValue =>
        match addInstance moduleName innerValue E with
        | .error e => .error e
        | .ok (id, E₁) =>
          .ok { E₁ with frameStack :=
            { cf with operandStack := id :: cf.operandStack } :: below }
      | .INHERITS moduleName =>
        match popOperand cf.operandStack with
        | .error e => .error e
        | .ok (selfId, s) =>
          match getInstance E.instances selfId with
          | .error e => .error e
          | .ok self =>
            .ok { E with frameStack :=
              { cf with operandStack :=
                  (if env.inherits self.module moduleName then TRUE_ID
                   else FALSE_ID) :: s } :: below }
      | .CONDITIONAL_JUMP count =>
        match popOperand cf.operandStack with
        | .error e => .error e
        | .ok (check, s) =>
          if check ≠ TRUE_ID ∧ check ≠ FALSE_ID then
            match addInstance "wollok.lang.BadParameterException" none
                { E with frameStack := { cf with operandStack := s } :: below } with
            | .error e => .error e
            | .ok (id, E₂) => interrupt .exc id E₂
          else if (cf.nextInstruction : Int) + count ≥ cf.instructions.length
              ∨ count < 0 then
            .error (.invalidJump count)
          else
            .ok { E with frameStack :=
              { cf with
                operandStack := s,
                nextInstruction :=
                  if check = FALSE_ID then ((cf.nextInstruction : Int) + count).toNat
                  else cf.nextInstruction } :: below }
      | .CALL message arity lookupStart =>
        match popOperands arity cf.operandStack with
        | .error e => .error e
        | .ok (popped, s₁) =>
          let argIds := popped.reverse
          match popOperand s₁ with
          | .error e => .error e
          | .ok (selfId, s₂) =>
            match getInstance E.instances selfId with
            | .error e => .error e
            | .ok self =>
              match callMethod env self.module message arity lookupStart with
              | none =>
                match env.methodLookup "messageNotUnderstood" 2 self.module with
                | none => .error .missingBody
                | some mnu =>
                  match mnu.body with
                  | none => .error .missingBody
                  | some b =>
                    match addInstance "wollok.lang.String"
                        (some (.str message)) E with
                    | .error e => .error e
                    | .ok (nameId, E₁) =>
                      match addInstance "wollok.lang.List"
                          (some (.list argIds)) E₁ with
                      | .error e => .error e
                      | .ok (argsId, E₂) =>
                        .ok { E₂ with frameStack :=
                          ⟨env.compile b, 0,
                            assocSet (zipObj (mnu.parameters.map (·.name))
                              [nameId, argsId]) "self" selfId,
                            [], []⟩
                          :: { cf with
                               operandStack := s₂,
                               resume := cf.resume ++ [.ret] }
                          :: below }
              | some method =>
                if method.isNative then
                  match natives method with
                  | none => .error .missingNative
                  | some nf =>
                    nf self (argIds.map (fun id => assocGet E.instances id))
                      { E with frameStack :=
                        { cf with operandStack := s₂ } :: below }
                else
                  match method.body with
                  | none => .error .missingBody
                  | some b =>
                    if method.parameters.any (·.isVarArg) then
                      match method.parameters.getLast? with
                      | none => .error .missingBody
                      | some lastP =>
                        match addInstance "wollok.lang.List"
                            (some (.list (argIds.drop
                              (method.parameters.length - 1)))) E with
                        | .error e => .error e
                        | .ok (restId, E₁) =>
                          .ok { E₁ with frameStack :=
                            ⟨env.compile b ++ [.PUSH VOID_ID, .INTERRUPT .ret], 0,
                              assocSet (assocSet
                                (zipObj ((method.parameters.map (·.name)).dropLast)
                                  argIds) lastP.name restId) "self" selfId,
                              [], []⟩
                            :: { cf with
                                 operandStack := s₂,
                                 resume := cf.resume ++ [.ret] }
                            :: below }
                    else
                      .ok { E with frameStack :=
                        ⟨env.compile b ++ [.PUSH VOID_ID, .INTERRUPT .ret], 0,
                          assocSet (zipObj (method.parameters.map (·.name)) argIds)
                            "self" selfId,
                          [], []⟩
                        :: { cf with
                             operandStack := s₂,
                             resume := cf.resume ++ [.ret] }
                        :: below }
      | .INIT arity lookupStart initFields =>
        match popOperand cf.operandStack with
        | .error e => .error e
        | .ok (selfId, s₁) =>
          match popOperands arity s₁ with
          | .error e => .error e
          | .ok (popped, s₂) =>
            let argIds := popped.reverse
            match getInstance E.instances selfId with
            | .error e => .error e
            | .ok self =>
              let allFields := (env.hierarchy self.module).foldl
                (fun fields moduleName => env.classFields moduleName ++ fields) []
              match env.constructorLookup arity lookupStart with
              | none => .error (.missingConstructor arity lookupStart)
              | some ctor =>
                let ownSuperclass := env.superclass lookupStart
                let mkFrame : Locals → Evaluation → Except VMErr Evaluation :=
                  fun locals E' =>
                    .ok { E' with frameStack :=
                      ⟨(if initFields then
                          flatMapL (fun f =>
                            .LOAD "self" :: (env.compile f.value ++ [.SET f.name]))
                            allFields
                        else [])
                        ++ (if ownSuperclass.isSome || !ctor.callsSuper then
                              flatMapL env.compile ctor.baseCallArgs
                                ++ [.LOAD "self",
                                    .INIT ctor.baseCallArgs.length
                                      (if ctor.callsSuper then
                                        ownSuperclass.getD lookupStart
                                       else lookupStart) false]
                            else [])
                        ++ env.compile ctor.body ++ [.LOAD "self", .INTERRUPT .ret],
                        0, locals, [], []⟩
                      :: { cf with
                           operandStack := s₂,
                           resume := cf.resume ++ [.ret] }
                      :: below }
                if ctor.parameters.any (·.isVarArg) then
                  match ctor.parameters.getLast? with
                  | none => .error .missingBody
                  | some lastP =>
                    match addInstance "wollok.lang.List"
                        (some (.list (argIds.drop
                          (ctor.parameters.length - 1)))) E with
                    | .error e => .error e
                    | .ok (restId, E₁) =>
                      mkFrame (assocSet (assocSet
                        (zipObj ((ctor.parameters.map (·.name)).dropLast) argIds)
                        lastP.name restId) "self" selfId) E₁
                else
                  mkFrame (assocSet (zipObj (ctor.parameters.map (·.name)) argIds)
                    "self" selfId) E
      | .IF_THEN_ELSE thenHandler elseHandler =>
        match popOperand cf.operandStack with
        | .error e => .error e
        | .ok (check, s) =>
          if check ≠ TRUE_ID ∧ check ≠ FALSE_ID then
            match addInstance "wollok.lang.BadParameterException" none
                { E with frameStack := { cf with operandStack := s } :: below } with
            | .error e => .error e
            | .ok (id, E₂) => interrupt .exc id E₂
          else
            .ok { E with frameStack :=
              ⟨.PUSH VOID_ID :: ((if check = TRUE_ID then thenHandler
                  else elseHandler) ++ [.INTERRUPT .res]),
                0, [], [], []⟩
              :: { cf with operandStack := s, resume := cf.resume ++ [.res] }
              :: below }
      | .TRY_CATCH_ALWAYS body catchHandler alwaysHandler =>
        .ok { E with frameStack :=
          ⟨.PUSH VOID_ID :: (body ++ [.INTERRUPT .res]), 0, [], [], []⟩
          :: ⟨.STORE "<exception>" false :: (catchHandler
                ++ [.LOAD "<exception>", .INTERRUPT .exc]), 0, [], [], [.exc]⟩
          :: ⟨.STORE "<previous_interruption>" false :: (alwaysHandler
                ++ [.LOAD "<previous_interruption>", .RESUME_INTERRUPTION]),
              0, [], [], [.res, .ret, .exc]⟩
          :: { cf with resume := cf.resume ++ [.res] }
          :: below }
      | .INTERRUPT interruption =>
        match popOperand cf.operandStack with
        | .error e => .error e
        | .ok (valueId, s) =>
          interrupt interruption valueId
            { E with frameStack := { cf with operandStack := s } :: below }
      | .RESUME_INTERRUPTION =>
        if cf.resume.length ≠ 2 then .error .cannotInfer
        else
          match [Interruption.exc, .ret, .res].find?
              (fun i => !cf.resume.contains i) with
          | none => .error .cannotInfer
          | some lastInterruption =>
            match popOperand cf.operandStack with
            | .error e => .error e
            | .ok (valueId, s) =>
              interrupt lastInterruption valueId
                { E with frameStack := { cf with operandStack := s } :: below }

/-- `n` applications of `step`, propagating host failures (the driver's
stepping loops iterate `step` exactly like this). -/
def stepN {β : Type} (env : Env β) (natives : Natives β) :
    Nat → Evaluation → Except VMErr Evaluation
  | 0, E => .ok E
  | n + 1, E =>
    match step env natives E with
    | .error e => .error e
    | .ok E₁ => stepN env natives n E₁

/-- Source: `cloneEvaluation`: duplicate every instance (shallow-copying
its fields map and innerValue), duplicate every frame (shallow-copying
locals, operand stack and resume, sharing the instruction sequence),
keep the environment shared. -/
def cloneEvaluation (E : Evaluation) : Evaluation :=
  { instances := E.instances.map (fun kv =>
      (kv.1, { id := kv.2.id, module := kv.2.module,
               fields := kv.2.fields, innerValue := kv.2.innerValue })),
    frameStack := E.frameStack.map (fun f =>
      { locals := f.locals, operandStack := f.operandStack,
        instructions := f.instructions, nextInstruction := f.nextInstruction,
        resume := f.resume }),
    nextId := E.nextId }

/-- Modelled from the spec: a named global singleton as seen by
`buildEvaluationFor` (the `descendants`/`is('Singleton')` queries of
`utils.ts` are not part of the sources): its AST node id, its fully
qualified name, and its `superCall`'s resolved superclass name and
arguments. -/
structure SingletonDecl (β : Type) where
  id : Id
  fqn : Name
  superclassFqn : Name
  superArgs : List β

/-- Source: `buildEvaluationFor(environment)`: pre-seed the heap with
`null`, `true`, `false` and the named global singletons, bind them as
globals, and set up a single frame running the singletons' INIT
sequences. The global singletons are passed in (the source computes
them with the absent `utils.ts`). -/
def buildEvaluationFor {β : Type} (env : Env β)
    (globalSingletons : List (SingletonDecl β)) : Evaluation :=
  let instances :=
    ((⟨NULL_ID, "wollok.lang.Object", [], some .null⟩ : RuntimeObject)
      :: (⟨TRUE_ID, "wollok.lang.Boolean", [], some (.bool true)⟩ : RuntimeObject)
      :: (⟨FALSE_ID, "wollok.lang.Boolean", [], some (.bool false)⟩ : RuntimeObject)
      :: globalSingletons.map (fun s => (⟨s.id, s.fqn, [], none⟩ : RuntimeObject))
    ).foldl (fun all inst => assocSet all inst.id inst) []
  let locals :=
    globalSingletons.foldl (fun all s => assocSet all s.fqn s.id)
      (assocSet (assocSet (assocSet [] "null" NULL_ID) "true" TRUE_ID)
        "false" FALSE_ID)
  { frameStack := [⟨flatMapL (fun s =>
        flatMapL env.compile s.superArgs
          ++ [.PUSH s.id, .INIT s.superArgs.length s.superclassFqn true])
        globalSingletons,
      0, locals, [], []⟩],
    instances := instances,
    nextId := 0 }

/-! ## Shared helper definitions for the theorems -/

/-- A minimal concrete environment, used by witnesses and
counterexamples. -/
def trivEnv : Env Unit :=
  ⟨fun _ => [], fun _ => none, fun _ _ => false, fun _ _ _ => none,
   fun _ _ => none, fun _ => [], fun _ => []⟩

/-- The empty natives registry. -/
def noNatives : Natives Unit := fun _ => none

/-- The locals of every frame of a step result, top first (empty on a
host failure). -/
def resultFrameLocals (r : Except VMErr Evaluation) : List Locals :=
  match r with
  | .ok E => E.frameStack.map Frame.locals
  | .error _ => []

/-- The heap of a step result at one id (`none` on a host failure). -/
def resultInstance (r : Except VMErr Evaluation) (id : Id) :
    Option RuntimeObject :=
  match r with
  | .ok E => assocGet E.instances id
  | .error _ => none

/-- The vararg method `m(a, b...)`, used by concrete test
environments. -/
def varargMethod : Method Unit := ⟨"m", [⟨"a", false⟩, ⟨"b", true⟩], false, some ()⟩

/-- A concrete environment offering the single vararg method
`m(a, b...)` on every class. -/
def varargEnv : Env Unit :=
  { trivEnv with methodLookup := fun msg ar _ =>
      if msg = "m" ∧ ar = 2 then some varargMethod else none }

/-- The fixed-arity method `f(p)`, used by concrete test
environments. -/
def fixedMethod : Method Unit := ⟨"f", [⟨"p", false⟩], false, some ()⟩

/-- A concrete environment offering the single fixed-arity method
`f(p)` on every class. -/
def fixedEnv : Env Unit :=
  { trivEnv with methodLookup := fun msg ar _ =>
      if msg = "f" ∧ ar = 1 then some fixedMethod else none }

/-- A two-parameter `messageNotUnderstood(n, as)` method, used by
concrete test environments. -/
def mnuMethod : Method Unit :=
  ⟨"messageNotUnderstood", [⟨"n", false⟩, ⟨"as", false⟩], false, some ()⟩

/-- A concrete environment where ordinary lookup always fails but
`messageNotUnderstood/2` resolves on every class. -/
def mnuEnv : Env Unit :=
  { trivEnv with methodLookup := fun msg ar _ =>
      if msg = "messageNotUnderstood" ∧ ar = 2 then some mnuMethod else none }

/-- The claim-side rounding of C8: to 4 decimal places, ties half away
from zero (`sign q * round(|q| * 10^4) / 10^4` with round half up). -/
def roundHalfAwayFromZero4 (q : ℚ) : ℚ :=
  (Int.sign q.num : ℚ) * (((⌊|q| * 10000 + 1 / 2⌋ : ℤ) : ℚ) / 10000)

/-- The instruction sequence of the top frame of a step result. -/
def resultTopInstructions (r : Except VMErr Evaluation) :
    Option (List Instruction) :=
  match r with
  | .ok E => E.frameStack.head?.map Frame.instructions
  | .error _ => none

/-- The locals of the top frame of a step result. -/
def resultTopLocals (r : Except VMErr Evaluation) : Option Locals :=
  match r with
  | .ok E => E.frameStack.head?.map Frame.locals
  | .error _ => none

/-- A parameterless native method `nm`, used by concrete test
environments. -/
def nativeMethod : Method Unit := ⟨"nm", [], true, none⟩

/-- A concrete environment offering the single native method `nm()` on
every class. -/
def nativeEnv : Env Unit :=
  { trivEnv with methodLookup := fun msg ar _ =>
      if msg = "nm" ∧ ar = 0 then some nativeMethod else none }

/-- A natives registry resolving every method to a native that leaves
the evaluation untouched. -/
def noopNatives : Natives Unit := fun _ => some (fun _ _ E => .ok E)

/-- Whether an instruction is one of the two boolean-guard
instructions, `CONDITIONAL_JUMP` or `IF_THEN_ELSE`. -/
def isCondCheck : Instruction → Bool
  | .CONDITIONAL_JUMP _ => true
  | .IF_THEN_ELSE _ _ => true
  | _ => false

/-- A step freshly raised a language-level exception: the next fresh id
was unallocated before the step, afterwards it holds a
`wollok.lang.BadParameterException`, and the frame stack shrank (an
interruption unwind happened). Allocation without unwinding
(INSTANTIATE, the messageNotUnderstood Strings/Lists, vararg Lists)
and unwinding without allocation (INTERRUPT, RESUME_INTERRUPTION) both
fall outside this predicate. -/
def FreshExnRaised (E E' : Evaluation) : Prop :=
  assocGet E.instances (freshId E.nextId) = none ∧
  (∃ o, assocGet E'.instances (freshId E.nextId) = some o ∧
    o.module = "wollok.lang.BadParameterException") ∧
  E'.frameStack.length < E.frameStack.length

/-- A concrete environment with hierarchy `C <: A`, one field on each
of the two classes, and a zero-argument super-calling constructor on
every class. -/
def initEnv : Env Unit :=
  { trivEnv with
    hierarchy := fun c => if c = "C" then ["C", "A"] else [c],
    superclass := fun c => if c = "C" then some "A" else none,
    constructorLookup := fun ar _ =>
      if ar = 0 then some ⟨[], [], true, ()⟩ else none,
    classFields := fun c =>
      if c = "C" then [⟨"x", ()⟩] else if c = "A" then [⟨"y", ()⟩] else [] }

/-! ## Shared lemmas -/

theorem assocGet_assocSet_self {α : Type} (l : List (Name × α)) (n : Name)
    (v : α) : assocGet (assocSet l n v) n = some v := by
  induction l with
  | nil => simp [assocSet, assocGet]
  | cons kv rest ih =>
    obtain ⟨k, w⟩ := kv
    by_cases h : k = n
    · simp [assocSet, assocGet, h]
    · simp [assocSet, assocGet, h, ih]

theorem assocGet_assocSet_ne {α : Type} (l : List (Name × α)) (n m : Name)
    (v : α) (h : n ≠ m) : assocGet (assocSet l n v) m = assocGet l m := by
  induction l with
  | nil => simp [assocSet, assocGet, h]
  | cons kv rest ih =>
    obtain ⟨k, w⟩ := kv
    by_cases hk : k = n
    · subst hk
      simp [assocSet, assocGet, h]
    · simp only [assocSet, assocGet, if_neg hk]
      by_cases hm : k = m <;> simp [assocGet, hm, ih]

theorem popOperands_append (xs ys : List Id) (hxs : ∀ x ∈ xs, x ≠ "") :
    popOperands xs.length (xs ++ ys) = .ok (xs, ys) := by
  induction xs with
  | nil => simp [popOperands]
  | cons x rest ih =>
    have hx : x ≠ "" := hxs x (List.mem_cons_self x rest)
    have hrest : ∀ y ∈ rest, y ≠ "" := fun y hy => hxs y (List.mem_cons_of_mem x hy)
    simp [popOperands, popOperand, hx, ih hrest]

/-! ## C7: the STORE instruction -/

/-- C7 counterexample: with `lookup = true` and the stored name bound
both in the current frame and in an outer frame, the popped value is
assigned in the *current* frame and the outer frame's binding is left
untouched — contradicting the claim's "v is assigned to name in that
outer frame's locals" (the source searches the reversed frame stack,
which starts at the current frame). -/
theorem store_lookup_outer_cex :
    resultFrameLocals (step trivEnv noNatives
      ⟨[⟨[.STORE "x" true], 0, [("x", "b")], ["v"], []⟩,
        ⟨[], 0, [("x", "a")], [], []⟩], [], 0⟩) =
      [[("x", "v")], [("x", "a")]] ∧ ("a" : Id) ≠ "v" :=
  ⟨rfl, by decide⟩

/-- C7 (amended): `STORE(name, lookup)` pops `v` from the operand
stack; the frame whose locals receive `name ↦ v` is the innermost
frame whose locals bind `name` — the current frame *included* — when
`lookup` is true and such a frame exists, and the current frame
otherwise. In particular, after `STORE(name, false)` the top frame's
locals map `name` to the popped value. -/
theorem store_target_frame {β : Type} (env : Env β) (natives : Natives β)
    (instrs : List Instruction) (pc : Nat) (locals : Locals)
    (v : Id) (s : List Id) (resume : List Interruption) (below : List Frame)
    (insts : List (Id × RuntimeObject)) (nid : Nat)
    (name : Name) (lookup : Bool)
    (hfetch : instrs.get? pc = some (.STORE name lookup))
    (hv : v ≠ "") :
    (step env natives ⟨⟨instrs, pc, locals, v :: s, resume⟩ :: below, insts, nid⟩ =
      .ok ⟨modifyFrame (fun f => { f with locals := assocSet f.locals name v })
            (if lookup then
              (findStoreIdx name (⟨instrs, pc + 1, locals, s, resume⟩ :: below)).getD 0
             else 0)
            (⟨instrs, pc + 1, locals, s, resume⟩ :: below), insts, nid⟩) ∧
    assocGet (assocSet locals name v) name = some v := by
  refine ⟨?_, assocGet_assocSet_self ..⟩
  simp only [step, hfetch]
  simp only [popOperand, if_neg hv]
  cases lookup with
  | false => rfl
  | true =>
    cases h : findStoreIdx name (⟨instrs, pc + 1, locals, s, resume⟩ :: below) with
    | none => simp [h]
    | some i => simp [h]

/-- Witness for `store_target_frame` at a concrete input: a
`STORE("y", false)` in a single frame binds `y` in that frame. -/
theorem store_target_frame_witness :
    step trivEnv noNatives ⟨[⟨[.STORE "y" false], 0, [], ["w"], []⟩], [], 0⟩ =
      .ok ⟨[⟨[.STORE "y" false], 1, [("y", "w")], [], []⟩], [], 0⟩ ∧
    assocGet (assocSet ([] : Locals) "y" "w") "y" = some "w" :=
  store_target_frame trivEnv noNatives [.STORE "y" false] 0 [] "w" [] [] [] [] 0
    "y" false rfl (by decide)

/-! ## C10: SET and GET on fields -/

/-- C10 counterexample: `GET` fails with the undefined-field host error
on an instance whose field *is* present but bound to the empty-string
id (the source's `!value` truthiness test), contradicting "fails ...
precisely when fields[name] is absent". -/
theorem get_empty_field_cex :
    step trivEnv noNatives
      ⟨[⟨[.GET "f"], 0, [], ["obj"], []⟩],
       [("obj", ⟨"obj", "M", [("f", "")], none⟩)], 0⟩ =
      .error (.undefinedField "M" "f") ∧
    assocHas [("f", ("" : Id))] "f" = true :=
  ⟨rfl, rfl⟩

/-- C10 (amended): `SET(name)` pops `v` and `self` and writes
`self.fields[name] = v`, creating the entry when absent — it never
fails because the field is absent — whereas `GET(name)` on the same
instance fails with the undefined-field host error precisely when
`fields[name]` is absent *or bound to the empty-string id* (the JS
falsiness test), and pushes the bound id otherwise. -/
theorem set_get_field_presence {β : Type} (env : Env β) (natives : Natives β)
    (instrs : List Instruction) (pc : Nat) (locals : Locals)
    (resume : List Interruption) (below : List Frame)
    (insts : List (Id × RuntimeObject)) (nid : Nat)
    (name : Name) (selfId v : Id) (rest : List Id) (self : RuntimeObject)
    (hv : v ≠ "") (hself : selfId ≠ "")
    (hinst : assocGet insts selfId = some self) :
    (instrs.get? pc = some (.SET name) →
      step env natives
          ⟨⟨instrs, pc, locals, v :: selfId :: rest, resume⟩ :: below, insts, nid⟩ =
        .ok ⟨⟨instrs, pc + 1, locals, rest, resume⟩ :: below,
             assocSet insts selfId
               { self with fields := assocSet self.fields name v }, nid⟩ ∧
      assocGet (assocSet self.fields name v) name = some v) ∧
    (instrs.get? pc = some (.GET name) →
      (step env natives
          ⟨⟨instrs, pc, locals, selfId :: rest, resume⟩ :: below, insts, nid⟩ =
        .error (.undefinedField self.module name) ↔
        truthy (assocGet self.fields name) = none) ∧
      (∀ w, truthy (assocGet self.fields name) = some w →
        step env natives
            ⟨⟨instrs, pc, locals, selfId :: rest, resume⟩ :: below, insts, nid⟩ =
          .ok ⟨⟨instrs, pc + 1, locals, w :: rest, resume⟩ :: below, insts, nid⟩)) := by
  constructor
  · intro hfetch
    refine ⟨?_, assocGet_assocSet_self ..⟩
    simp only [step, hfetch]
    simp [popOperand, hv, hself, getInstance, hinst]
  · intro hfetch
    constructor
    · constructor
      · intro hstep
        cases h : truthy (assocGet self.fields name) with
        | none => rfl
        | some w =>
          simp only [step, hfetch] at hstep
          simp [popOperand, hself, getInstance, hinst, h] at hstep
      · intro h
        simp only [step, hfetch]
        simp [popOperand, hself, getInstance, hinst, h]
    · intro w h
      simp only [step, hfetch]
      simp [popOperand, hself, getInstance, hinst, h]

/-- Witness for `set_get_field_presence`: a `SET("f")` on an instance
without the field creates it. -/
theorem set_get_field_presence_witness :
    step trivEnv noNatives
      ⟨[⟨[.SET "f"], 0, [], ["w", "obj"], []⟩],
       [("obj", ⟨"obj", "M", [], none⟩)], 0⟩ =
      .ok ⟨[⟨[.SET "f"], 1, [], [], []⟩],
           [("obj", ⟨"obj", "M", [("f", "w")], none⟩)], 0⟩ ∧
    assocGet (assocSet ([] : Locals) "f" "w") "f" = some "w" :=
  (set_get_field_presence trivEnv noNatives [.SET "f"] 0 [] [] []
    [("obj", ⟨"obj", "M", [], none⟩)] 0 "f" "obj" "w" [] ⟨"obj", "M", [], none⟩
    (by decide) (by decide) rfl).1 rfl

/-! ## C2: reserved ids in the bootstrap heap -/

/-- C2 (code bug): `buildEvaluationFor` pre-seeds the heap with `null`,
`true` and `false` carrying the claimed modules, but it never allocates
a `void` instance — `VOID_ID` is pushed by `PUSH(void)` throughout the
compiled code, yet `instances['void']` stays undefined. -/
theorem buildEvaluationFor_reserved_ids :
    assocGet (buildEvaluationFor trivEnv []).instances NULL_ID =
      some ⟨NULL_ID, "wollok.lang.Object", [], some .null⟩ ∧
    assocGet (buildEvaluationFor trivEnv []).instances TRUE_ID =
      some ⟨TRUE_ID, "wollok.lang.Boolean", [], some (.bool true)⟩ ∧
    assocGet (buildEvaluationFor trivEnv []).instances FALSE_ID =
      some ⟨FALSE_ID, "wollok.lang.Boolean", [], some (.bool false)⟩ ∧
    assocGet (buildEvaluationFor trivEnv []).instances VOID_ID = none :=
  ⟨rfl, rfl, rfl, rfl⟩

/-! ## C4: cloning and lock-step stepping -/

theorem cloneEvaluation_eq (E : Evaluation) : cloneEvaluation E = E := by
  cases E with
  | mk fs insts nid =>
    have hinsts : ∀ l : List (Id × RuntimeObject),
        l.map (fun kv => (kv.1, ({ id := kv.2.id,
                                   module := kv.2.module,
                                   fields := kv.2.fields,
                                   innerValue := kv.2.innerValue } : RuntimeObject)))
        = l := by
      intro l
      induction l with
      | nil => rfl
      | cons kv rest ih => simp only [List.map_cons, ih]
    have hframes : ∀ l : List Frame,
        l.map (fun f => ({ locals := f.locals,
                           operandStack := f.operandStack,
                           instructions := f.instructions,
                           nextInstruction := f.nextInstruction,
                           resume := f.resume } : Frame)) = l := by
      intro l
      induction l with
      | nil => rfl
      | cons f rest ih => simp only [List.map_cons, ih]
    simp only [cloneEvaluation, hinsts, hframes]

/-- C4: cloning an evaluation and stepping both in lock-step (the same
number of steps with the same natives) yields heaps that agree on every
identifier after every step. In this value-semantics embedding the
clone reconstructs every instance and frame field-by-field exactly as
the source does, and mutation is modelled by state passing, so the
non-observability of mutations across the clone holds by construction;
fresh ids are the deterministic per-evaluation counter the spec's
design notes allow. -/
theorem clone_lockstep_heap_agreement {β : Type} (env : Env β)
    (natives : Natives β) (E : Evaluation) (n : Nat) (id : Id) :
    resultInstance (stepN env natives n (cloneEvaluation E)) id =
      resultInstance (stepN env natives n E) id := by
  rw [cloneEvaluation_eq]

/-! ## C8: number rounding at allocation -/

theorem jsToFixed4_eq_roundHalfAwayFromZero4 (q : ℚ) :
    jsToFixed4 q = roundHalfAwayFromZero4 q := by
  rcases lt_trichotomy q 0 with h | h | h
  · have hs : Int.sign q.num = -1 :=
      Int.sign_eq_neg_one_of_neg (Rat.num_neg.mpr h)
    have habs : |q| = -q := abs_of_neg h
    simp [jsToFixed4, roundHalfAwayFromZero4, h, hs, habs]
  · subst h
    simp [jsToFixed4, roundHalfAwayFromZero4]
    norm_num
  · have hs : Int.sign q.num = 1 :=
      Int.sign_eq_one_of_pos (Rat.num_pos.mpr h)
    have habs : |q| = q := abs_of_pos h
    rw [jsToFixed4, roundHalfAwayFromZero4, if_neg (not_lt.mpr h.le), hs, habs]
    simp

/-- C8: allocating a `wollok.lang.Number` stores the payload rounded to
4 decimal places half away from zero, both through `addInstance`
directly and through any executed `INSTANTIATE('wollok.lang.Number', n)`
instruction (which is what every number literal compiles to). -/
theorem number_rounding {β : Type} (env : Env β) (natives : Natives β)
    (instrs : List Instruction) (pc : Nat) (locals : Locals)
    (stack : List Id) (resume : List Interruption) (below : List Frame)
    (insts : List (Id × RuntimeObject)) (nid : Nat) (q : ℚ)
    (hfetch : instrs.get? pc =
      some (.INSTANTIATE "wollok.lang.Number" (some (.num q)))) :
    (∀ E : Evaluation, ∃ E',
      addInstance "wollok.lang.Number" (some (.num q)) E =
        .ok (freshId E.nextId, E') ∧
      assocGet E'.instances (freshId E.nextId) =
        some ⟨freshId E.nextId, "wollok.lang.Number", [],
          some (.num (roundHalfAwayFromZero4 q))⟩) ∧
    step env natives ⟨⟨instrs, pc, locals, stack, resume⟩ :: below, insts, nid⟩ =
      .ok ⟨⟨instrs, pc + 1, locals, freshId nid :: stack, resume⟩ :: below,
           assocSet insts (freshId nid)
             ⟨freshId nid, "wollok.lang.Number", [],
               some (.num (roundHalfAwayFromZero4 q))⟩, nid + 1⟩ := by
  constructor
  · intro E
    refine ⟨_, rfl, ?_⟩
    rw [← jsToFixed4_eq_roundHalfAwayFromZero4]
    exact assocGet_assocSet_self ..
  · simp only [step, hfetch]
    simp [addInstance, jsToFixed4_eq_roundHalfAwayFromZero4]

/-! ## C1: the CALL instruction on a non-native method -/

theorem assocGet_foldl_assocSet_of_not_mem {α : Type} (l : List (Name × α))
    (acc : List (Name × α)) (key : Name) (h : key ∉ l.map Prod.fst) :
    assocGet (l.foldl (fun a p => assocSet a p.1 p.2) acc) key = assocGet acc key := by
  induction l generalizing acc with
  | nil => rfl
  | cons p rest ih =>
    simp only [List.map_cons, List.mem_cons, not_or] at h
    simp only [List.foldl_cons]
    rw [ih _ h.2, assocGet_assocSet_ne _ _ _ _ (fun he => h.1 he.symm)]

theorem zipObj_get (ks : List Name) (vs : List Id) (hnodup : ks.Nodup)
    (hlen : ks.length ≤ vs.length) (i : Nat) (hi : i < ks.length)
    (hv : i < vs.length) :
    assocGet (zipObj ks vs) (ks.get ⟨i, hi⟩) = some (vs.get ⟨i, hv⟩) := by
  suffices h : ∀ acc, assocGet ((List.zip ks vs).foldl
      (fun a p => assocSet a p.1 p.2) acc) (ks.get ⟨i, hi⟩) =
      some (vs.get ⟨i, hv⟩) from h []
  induction ks generalizing vs i with
  | nil => exact absurd hi (by simp)
  | cons k ks ih =>
    intro acc
    cases vs with
    | nil => simp at hlen
    | cons v vs =>
      simp only [List.zip_cons_cons, List.foldl_cons]
      cases i with
      | zero =>
        have hmem : k ∉ (List.zip ks vs).map Prod.fst := by
          intro hk
          obtain ⟨p, hp, hpk⟩ := List.mem_map.mp hk
          obtain ⟨a, b⟩ := p
          exact (List.nodup_cons.mp hnodup).1 (hpk ▸ (List.of_mem_zip hp).1)
        simp only [List.get]
        rw [assocGet_foldl_assocSet_of_not_mem _ _ _ hmem,
          assocGet_assocSet_self]
      | succ j =>
        simp only [List.get]
        exact ih vs (List.nodup_cons.mp hnodup).2
          (by simpa using hlen) j (by simpa using hi) (by simpa using hv)
          (assocSet acc k v)

/-- Witness for `number_rounding`: instantiating the literal `2.71828`
yields an instance holding `2.7183`. -/
theorem number_rounding_witness :
    step trivEnv noNatives
      ⟨[⟨[.INSTANTIATE "wollok.lang.Number" (some (.num (271828 / 100000)))],
         0, [], [], []⟩], [], 0⟩ =
      .ok ⟨[⟨[.INSTANTIATE "wollok.lang.Number" (some (.num (271828 / 100000)))],
             1, [], [freshId 0], []⟩],
           [(freshId 0, ⟨freshId 0, "wollok.lang.Number", [],
              some (.num (roundHalfAwayFromZero4 (271828 / 100000)))⟩)], 1⟩ :=
  (number_rounding trivEnv noNatives
    [.INSTANTIATE "wollok.lang.Number" (some (.num (271828 / 100000)))]
    0 [] [] [] [] [] 0 (271828 / 100000) rfl).2

/-- C1 counterexample: a CALL resolving to the vararg method
`m(a, b...)` with two arguments binds `b` to a freshly allocated
`wollok.lang.List` holding the tail of the argument ids — not to the
corresponding argument id `"y"` — contradicting "locals binding each
parameter to the corresponding argument id". -/
theorem call_vararg_binding_cex :
    resultFrameLocals (step varargEnv noNatives
      ⟨[⟨[.CALL "m" 2 none], 0, [], ["y", "x", "recv"], []⟩],
       [("recv", ⟨"recv", "C", [], none⟩)], 0⟩) =
      [[("a", "x"), ("b", freshId 0), ("self", "recv")], []] ∧
    freshId 0 ≠ ("y" : Id) ∧
    resultInstance (step varargEnv noNatives
      ⟨[⟨[.CALL "m" 2 none], 0, [], ["y", "x", "recv"], []⟩],
       [("recv", ⟨"recv", "C", [], none⟩)], 0⟩) (freshId 0) =
      some ⟨freshId 0, "wollok.lang.List", [], some (.list ["y"])⟩ :=
  ⟨rfl, by decide, rfl⟩

/-- C1 (amended): a CALL that resolves to a non-native method pops the
`arity` argument ids (recovering their original push order by the
final reverse) and then the receiver id, marks the current frame as
resuming on `return`, and pushes a frame running
`compile(body) ++ [PUSH(void), INTERRUPT(return)]` from instruction 0
with empty operand stack and empty resume set. Its locals bind `self`
to the receiver id and: when the method has no vararg parameter, each
parameter pairwise to the corresponding argument id; when its last
parameter is a vararg, the preceding parameters pairwise and the
vararg parameter to a freshly allocated `wollok.lang.List` holding the
remaining argument ids. -/
theorem call_nonnative_step {β : Type} (env : Env β) (natives : Natives β)
    (instrs : List Instruction) (pc : Nat) (locals : Locals)
    (argsRev : List Id) (selfId : Id) (rest : List Id)
    (resume : List Interruption) (below : List Frame)
    (insts : List (Id × RuntimeObject)) (nid : Nat)
    (message : Name) (arity : Nat) (ls : Option Name)
    (self : RuntimeObject) (method : Method β) (b : β)
    (hfetch : instrs.get? pc = some (.CALL message arity ls))
    (harity : arity = argsRev.length)
    (hargs : ∀ x ∈ argsRev, x ≠ "")
    (hselfId : selfId ≠ "")
    (hinst : assocGet insts selfId = some self)
    (hmethod : callMethod env self.module message arity ls = some method)
    (hnn : method.isNative = false)
    (hbody : method.body = some b) :
    (method.parameters.any (·.isVarArg) = false →
      step env natives ⟨⟨instrs, pc, locals, argsRev ++ selfId :: rest, resume⟩
          :: below, insts, nid⟩ =
        .ok ⟨⟨env.compile b ++ [.PUSH VOID_ID, .INTERRUPT .ret], 0,
              assocSet (zipObj (method.parameters.map (·.name)) argsRev.reverse)
                "self" selfId, [], []⟩
          :: ⟨instrs, pc + 1, locals, rest, resume ++ [.ret]⟩ :: below,
          insts, nid⟩) ∧
    (∀ lastP, method.parameters.any (·.isVarArg) = true →
      method.parameters.getLast? = some lastP →
      step env natives ⟨⟨instrs, pc, locals, argsRev ++ selfId :: rest, resume⟩
          :: below, insts, nid⟩ =
        .ok ⟨⟨env.compile b ++ [.PUSH VOID_ID, .INTERRUPT .ret], 0,
              assocSet (assocSet
                (zipObj ((method.parameters.map (·.name)).dropLast)
                  argsRev.reverse)
                lastP.name (freshId nid)) "self" selfId, [], []⟩
          :: ⟨instrs, pc + 1, locals, rest, resume ++ [.ret]⟩ :: below,
          assocSet insts (freshId nid)
            ⟨freshId nid, "wollok.lang.List", [],
             some (.list (argsRev.reverse.drop (method.parameters.length - 1)))⟩,
          nid + 1⟩) ∧
    (method.parameters.any (·.isVarArg) = false →
      (method.parameters.map (·.name)).Nodup →
      method.parameters.length = arity →
      ∀ i, ∀ hip : i < method.parameters.length,
      ∀ hia : i < argsRev.reverse.length,
        (method.parameters.get ⟨i, hip⟩).name ≠ "self" →
        assocGet (assocSet
            (zipObj (method.parameters.map (·.name)) argsRev.reverse)
            "self" selfId) (method.parameters.get ⟨i, hip⟩).name =
          some (argsRev.reverse.get ⟨i, hia⟩)) := by
  subst harity
  have hpops : popOperands argsRev.length (argsRev ++ selfId :: rest) =
      .ok (argsRev, selfId :: rest) := popOperands_append _ _ hargs
  refine ⟨?_, ?_, ?_⟩
  · intro hvar
    simp only [step, hfetch]
    simp [hpops, popOperand, hselfId, getInstance, hinst, hmethod, hnn, hvar,
      hbody]
  · intro lastP hvar hlast
    simp only [step, hfetch]
    simp [hpops, popOperand, hselfId, getInstance, hinst, hmethod, hnn, hvar,
      hbody, hlast, addInstance]
  · intro hvar hnodup hplen i hip hia hne
    rw [assocGet_assocSet_ne _ _ _ _ (Ne.symm hne)]
    have hlen : (method.parameters.map (·.name)).length ≤
        argsRev.reverse.length := by
      simp [hplen]
    have hmap : i < (method.parameters.map (·.name)).length := by
      simpa using hip
    have := zipObj_get (method.parameters.map (·.name)) argsRev.reverse
      hnodup hlen i hmap hia
    simpa using this

/-- Witness for `call_nonnative_step`: a concrete fixed-arity call
`recv.f(x)`. -/
theorem call_nonnative_step_witness :
    step fixedEnv noNatives
      ⟨[⟨[.CALL "f" 1 none], 0, [], ["x", "recv"], []⟩],
       [("recv", ⟨"recv", "C", [], none⟩)], 0⟩ =
      .ok ⟨⟨[.PUSH VOID_ID, .INTERRUPT .ret], 0,
            [("p", "x"), ("self", "recv")], [], []⟩
        :: ⟨[.CALL "f" 1 none], 1, [], [], [.ret]⟩ :: [],
        [("recv", ⟨"recv", "C", [], none⟩)], 0⟩ :=
  (call_nonnative_step fixedEnv noNatives [.CALL "f" 1 none] 0 [] ["x"] "recv"
    [] [] [] [("recv", ⟨"recv", "C", [], none⟩)] 0 "f" 1 none
    ⟨"recv", "C", [], none⟩ fixedMethod () rfl rfl (by decide) (by decide)
    rfl rfl rfl rfl).1 rfl

/-! ## C6: the messageNotUnderstood fallback -/

/-- C6: a CALL whose method lookup finds nothing allocates a
`wollok.lang.String` holding the message name and a `wollok.lang.List`
holding the popped argument ids, marks the current frame as resuming
on `return`, and pushes a frame running the compiled body of the
`messageNotUnderstood` method resolved from the receiver's own module,
with locals binding its two parameters to the String id and the List
id and `self` to the receiver id. -/
theorem call_message_not_understood {β : Type} (env : Env β)
    (natives : Natives β)
    (instrs : List Instruction) (pc : Nat) (locals : Locals)
    (argsRev : List Id) (selfId : Id) (rest : List Id)
    (resume : List Interruption) (below : List Frame)
    (insts : List (Id × RuntimeObject)) (nid : Nat)
    (message : Name) (arity : Nat) (ls : Option Name)
    (self : RuntimeObject) (mnu : Method β) (b : β)
    (hfetch : instrs.get? pc = some (.CALL message arity ls))
    (harity : arity = argsRev.length)
    (hargs : ∀ x ∈ argsRev, x ≠ "")
    (hselfId : selfId ≠ "")
    (hinst : assocGet insts selfId = some self)
    (hmethod : callMethod env self.module message arity ls = none)
    (hmnu : env.methodLookup "messageNotUnderstood" 2 self.module = some mnu)
    (hbody : mnu.body = some b) :
    (step env natives ⟨⟨instrs, pc, locals, argsRev ++ selfId :: rest, resume⟩
        :: below, insts, nid⟩ =
      .ok ⟨⟨env.compile b, 0,
            assocSet (zipObj (mnu.parameters.map (·.name))
              [freshId nid, freshId (nid + 1)]) "self" selfId, [], []⟩
        :: ⟨instrs, pc + 1, locals, rest, resume ++ [.ret]⟩ :: below,
        assocSet (assocSet insts (freshId nid)
            ⟨freshId nid, "wollok.lang.String", [], some (.str message)⟩)
          (freshId (nid + 1))
          ⟨freshId (nid + 1), "wollok.lang.List", [],
            some (.list argsRev.reverse)⟩,
        nid + 2⟩) ∧
    (∀ n1 n2, mnu.parameters.map (·.name) = [n1, n2] →
      n1 ≠ n2 → n1 ≠ "self" → n2 ≠ "self" →
      assocGet (assocSet (zipObj (mnu.parameters.map (·.name))
          [freshId nid, freshId (nid + 1)]) "self" selfId) n1 =
        some (freshId nid) ∧
      assocGet (assocSet (zipObj (mnu.parameters.map (·.name))
          [freshId nid, freshId (nid + 1)]) "self" selfId) n2 =
        some (freshId (nid + 1)) ∧
      assocGet (assocSet (zipObj (mnu.parameters.map (·.name))
          [freshId nid, freshId (nid + 1)]) "self" selfId) "self" =
        some selfId) := by
  subst harity
  have hpops : popOperands argsRev.length (argsRev ++ selfId :: rest) =
      .ok (argsRev, selfId :: rest) := popOperands_append _ _ hargs
  constructor
  · simp only [step, hfetch]
    simp [hpops, popOperand, hselfId, getInstance, hinst, hmethod, hmnu,
      hbody, addInstance]
  · intro n1 n2 hnames hne12 hn1 hn2
    rw [hnames]
    refine ⟨?_, ?_, assocGet_assocSet_self ..⟩
    · rw [assocGet_assocSet_ne _ _ _ _ (Ne.symm hn1)]
      show assocGet (assocSet (assocSet [] n1 (freshId nid)) n2
        (freshId (nid + 1))) n1 = _
      rw [assocGet_assocSet_ne _ _ _ _ hne12.symm, assocGet_assocSet_self]
    · rw [assocGet_assocSet_ne _ _ _ _ (Ne.symm hn2)]
      show assocGet (assocSet (assocSet [] n1 (freshId nid)) n2
        (freshId (nid + 1))) n2 = _
      rw [assocGet_assocSet_self]

/-- Witness for `call_message_not_understood`: a concrete call
`recv.g(x)` with no matching method. -/
theorem call_message_not_understood_witness :
    step mnuEnv noNatives
      ⟨[⟨[.CALL "g" 1 none], 0, [], ["x", "recv"], []⟩],
       [("recv", ⟨"recv", "C", [], none⟩)], 0⟩ =
      .ok ⟨⟨[], 0, [("n", freshId 0), ("as", freshId 1), ("self", "recv")],
            [], []⟩
        :: ⟨[.CALL "g" 1 none], 1, [], [], [.ret]⟩ :: [],
        [("recv", ⟨"recv", "C", [], none⟩),
         (freshId 0, ⟨freshId 0, "wollok.lang.String", [], some (.str "g")⟩),
         (freshId 1, ⟨freshId 1, "wollok.lang.List", [], some (.list ["x"])⟩)],
        2⟩ :=
  (call_message_not_understood mnuEnv noNatives [.CALL "g" 1 none] 0 [] ["x"]
    "recv" [] [] [] [("recv", ⟨"recv", "C", [], none⟩)] 0 "g" 1 none
    ⟨"recv", "C", [], none⟩ mnuMethod () rfl rfl (by decide) (by decide)
    rfl rfl rfl rfl).1

/-! ## C3: field initialization in INIT -/

theorem flatMapL_append {α γ : Type} (f : α → List γ) (l₁ l₂ : List α) :
    flatMapL f (l₁ ++ l₂) = flatMapL f l₁ ++ flatMapL f l₂ := by
  induction l₁ with
  | nil => simp [flatMapL]
  | cons a as ih => simp [flatMapL, ih]

theorem foldl_append_eq_flatMapL_reverse {α γ : Type} (f : α → List γ) :
    ∀ (l : List α) (acc : List γ),
      l.foldl (fun fields a => f a ++ fields) acc =
        flatMapL f l.reverse ++ acc := by
  intro l
  induction l with
  | nil => intro acc; simp [flatMapL]
  | cons a as ih =>
    intro acc
    simp only [List.foldl_cons, List.reverse_cons]
    rw [ih, flatMapL_append]
    simp [flatMapL]

/-- C3: an INIT executed with `initFields = true` pushes a frame whose
instructions begin with, for every field of the receiver's concrete
class hierarchy, the triple `LOAD(self), compile(field.value),
SET(field.name)`, with the hierarchy traversed root-first — so fields
of a superclass appear before fields of any subclass and declaration
order within a class is preserved — and with `initFields = false` that
prefix is empty, the chained base-call INIT itself carrying
`initFields = false`. -/
theorem init_field_initialization {β : Type} (env : Env β)
    (natives : Natives β)
    (instrs : List Instruction) (pc : Nat) (locals : Locals)
    (argsRev : List Id) (selfId : Id) (rest : List Id)
    (resume : List Interruption) (below : List Frame)
    (insts : List (Id × RuntimeObject)) (nid : Nat)
    (arity : Nat) (lookupStart : Name) (initFields : Bool)
    (self : RuntimeObject) (ctor : Constructor β)
    (hfetch : instrs.get? pc = some (.INIT arity lookupStart initFields))
    (harity : arity = argsRev.length)
    (hargs : ∀ x ∈ argsRev, x ≠ "")
    (hselfId : selfId ≠ "")
    (hinst : assocGet insts selfId = some self)
    (hctor : env.constructorLookup arity lookupStart = some ctor) :
    resultTopInstructions (step env natives
      ⟨⟨instrs, pc, locals, selfId :: (argsRev ++ rest), resume⟩ :: below,
       insts, nid⟩) =
      some (
        (if initFields then
          flatMapL (fun f => .LOAD "self" :: (env.compile f.value ++ [.SET f.name]))
            (flatMapL env.classFields (env.hierarchy self.module).reverse)
         else [])
        ++ (if (env.superclass lookupStart).isSome || !ctor.callsSuper then
              flatMapL env.compile ctor.baseCallArgs
                ++ [.LOAD "self",
                    .INIT ctor.baseCallArgs.length
                      (if ctor.callsSuper then
                        (env.superclass lookupStart).getD lookupStart
                       else lookupStart) false]
            else [])
        ++ env.compile ctor.body ++ [.LOAD "self", .INTERRUPT .ret]) := by
  subst harity
  have hpops : popOperands argsRev.length (argsRev ++ rest) =
      .ok (argsRev, rest) := popOperands_append _ _ hargs
  have hfold : (env.hierarchy self.module).foldl
      (fun fields m => env.classFields m ++ fields) [] =
      flatMapL env.classFields (env.hierarchy self.module).reverse := by
    rw [foldl_append_eq_flatMapL_reverse]
    simp
  cases hvar : ctor.parameters.any (·.isVarArg) with
  | false =>
    simp only [step, hfetch]
    simp [popOperand, hselfId, hpops, getInstance, hinst, hctor, hvar,
      resultTopInstructions, hfold]
  | true =>
    have hne : ctor.parameters ≠ [] := by
      intro h
      rw [h] at hvar
      simp at hvar
    obtain ⟨lastP, hlast⟩ :=
      Option.isSome_iff_exists.mp (List.getLast?_isSome.mpr hne)
    simp only [step, hfetch]
    simp [popOperand, hselfId, hpops, getInstance, hinst, hctor, hvar, hlast,
      addInstance, resultTopInstructions, hfold]

/-- Witness for `init_field_initialization`: a concrete
`INIT(0, "C", true)` with hierarchy `C <: A` and one field on each
class initializes `A`'s field before `C`'s. -/
theorem init_field_initialization_witness :
    resultTopInstructions (step initEnv noNatives
      ⟨[⟨[.INIT 0 "C" true], 0, [], ["recv"], []⟩],
       [("recv", ⟨"recv", "C", [], none⟩)], 0⟩) =
      some [.LOAD "self", .SET "y", .LOAD "self", .SET "x",
            .LOAD "self", .INIT 0 "A" false,
            .LOAD "self", .INTERRUPT .ret] :=
  init_field_initialization initEnv noNatives [.INIT 0 "C" true] 0 [] []
    "recv" [] [] [] [("recv", ⟨"recv", "C", [], none⟩)] 0 0 "C" true
    ⟨"recv", "C", [], none⟩ ⟨[], [], true, ()⟩ rfl rfl (by simp) (by decide)
    rfl rfl

/-! ## C9: the self local after CALL and INIT -/

/-- C9 counterexample: a CALL resolving to a *native* method pushes no
frame and hands the evaluation to the native (here a no-op), so the
top frame afterwards is the caller, whose locals need not bind `self`
to the receiver — contradicting the claim's "including native-method
calls". -/
theorem call_native_self_cex :
    step nativeEnv noopNatives
      ⟨[⟨[.CALL "nm" 0 none], 0, [], ["recv"], []⟩],
       [("recv", ⟨"recv", "C", [], none⟩)], 0⟩ =
      .ok ⟨[⟨[.CALL "nm" 0 none], 1, [], [], []⟩],
           [("recv", ⟨"recv", "C", [], none⟩)], 0⟩ ∧
    assocGet ([] : Locals) "self" ≠ some "recv" :=
  ⟨rfl, by decide⟩

theorem any_isVarArg_ne_nil (ps : List Parameter)
    (h : ps.any (·.isVarArg) = true) : ps ≠ [] := by
  intro hnil
  rw [hnil] at h
  simp at h

/-- C9 (amended): after every step executing a CALL that resolves to a
non-native method (the messageNotUnderstood fallback included) or an
INIT, without a host-level failure, the top frame's `self` local
equals the receiver id popped by that instruction; for a CALL
resolving to a native method no frame is pushed and the claim fails
(see the counterexample). -/
theorem call_init_self_local {β : Type} (env : Env β) (natives : Natives β)
    (instrs : List Instruction) (pc : Nat) (locals : Locals)
    (argsRev : List Id) (selfId : Id) (rest : List Id)
    (resume : List Interruption) (below : List Frame)
    (insts : List (Id × RuntimeObject)) (nid : Nat)
    (self : RuntimeObject)
    (hargs : ∀ x ∈ argsRev, x ≠ "")
    (hselfId : selfId ≠ "")
    (hinst : assocGet insts selfId = some self) :
    (∀ message ls (method : Method β) b,
      instrs.get? pc = some (.CALL message argsRev.length ls) →
      callMethod env self.module message argsRev.length ls = some method →
      method.isNative = false → method.body = some b →
      ∃ L, resultTopLocals (step env natives
          ⟨⟨instrs, pc, locals, argsRev ++ selfId :: rest, resume⟩ :: below,
           insts, nid⟩) = some L ∧ assocGet L "self" = some selfId) ∧
    (∀ message ls (mnu : Method β) b,
      instrs.get? pc = some (.CALL message argsRev.length ls) →
      callMethod env self.module message argsRev.length ls = none →
      env.methodLookup "messageNotUnderstood" 2 self.module = some mnu →
      mnu.body = some b →
      ∃ L, resultTopLocals (step env natives
          ⟨⟨instrs, pc, locals, argsRev ++ selfId :: rest, resume⟩ :: below,
           insts, nid⟩) = some L ∧ assocGet L "self" = some selfId) ∧
    (∀ lookupStart initFields (ctor : Constructor β),
      instrs.get? pc = some (.INIT argsRev.length lookupStart initFields) →
      env.constructorLookup argsRev.length lookupStart = some ctor →
      ∃ L, resultTopLocals (step env natives
          ⟨⟨instrs, pc, locals, selfId :: (argsRev ++ rest), resume⟩ :: below,
           insts, nid⟩) = some L ∧ assocGet L "self" = some selfId) := by
  have hpops : popOperands argsRev.length (argsRev ++ selfId :: rest) =
      .ok (argsRev, selfId :: rest) := popOperands_append _ _ hargs
  have hpops' : popOperands argsRev.length (argsRev ++ rest) =
      .ok (argsRev, rest) := popOperands_append _ _ hargs
  refine ⟨?_, ?_, ?_⟩
  · intro message ls method b hfetch hmethod hnn hbody
    cases hvar : method.parameters.any (·.isVarArg) with
    | false =>
      simp only [step, hfetch]
      simp [hpops, popOperand, hselfId, getInstance, hinst, hmethod, hnn,
        hvar, hbody, resultTopLocals]
      exact assocGet_assocSet_self ..
    | true =>
      obtain ⟨lastP, hlast⟩ := Option.isSome_iff_exists.mp
        (List.getLast?_isSome.mpr (any_isVarArg_ne_nil _ hvar))
      simp only [step, hfetch]
      simp [hpops, popOperand, hselfId, getInstance, hinst, hmethod, hnn,
        hvar, hbody, hlast, addInstance, resultTopLocals]
      exact assocGet_assocSet_self ..
  · intro message ls mnu b hfetch hmethod hmnu hbody
    simp only [step, hfetch]
    simp [hpops, popOperand, hselfId, getInstance, hinst, hmethod, hmnu,
      hbody, addInstance, resultTopLocals]
    exact assocGet_assocSet_self ..
  · intro lookupStart initFields ctor hfetch hctor
    cases hvar : ctor.parameters.any (·.isVarArg) with
    | false =>
      simp only [step, hfetch]
      simp [hpops', popOperand, hselfId, getInstance, hinst, hctor, hvar,
        resultTopLocals]
      exact assocGet_assocSet_self ..
    | true =>
      obtain ⟨lastP, hlast⟩ := Option.isSome_iff_exists.mp
        (List.getLast?_isSome.mpr (any_isVarArg_ne_nil _ hvar))
      simp only [step, hfetch]
      simp [hpops', popOperand, hselfId, getInstance, hinst, hctor, hvar,
        hlast, addInstance, resultTopLocals]
      exact assocGet_assocSet_self ..

/-! ## C5: the only VM-raised exception is BadParameterException -/

theorem modifyFrame_length (g : Frame → Frame) :
    ∀ (n : Nat) (l : List Frame), (modifyFrame g n l).length = l.length := by
  intro n
  induction n with
  | zero => intro l; cases l <;> simp [modifyFrame]
  | succ m ih => intro l; cases l <;> simp [modifyFrame, ih]

theorem unwindTo_length_lt (kind : Interruption) :
    ∀ (l : List Frame) (f : Frame) (fs : List Frame),
      unwindTo kind l = some (f, fs) → fs.length < l.length := by
  intro l
  induction l with
  | nil => intro f fs h; simp [unwindTo] at h
  | cons g gs ih =>
    intro f fs h
    simp only [unwindTo] at h
    by_cases hg : g.resume.contains kind
    · rw [if_pos hg] at h
      obtain ⟨rfl, rfl⟩ := Prod.mk.injEq .. ▸ Option.some.inj h
      simp
    · rw [if_neg hg] at h
      exact Nat.lt_succ_of_lt (ih f fs h)

theorem interrupt_ok_instances (kind : Interruption) (valueId : Id)
    (E E' : Evaluation) (h : interrupt kind valueId E = .ok E') :
    E'.instances = E.instances := by
  unfold interrupt at h
  split at h
  · exact absurd h (by simp)
  · split at h
    · exact absurd h (by simp)
    · obtain rfl := Except.ok.inj h
      rfl

theorem interrupt_ok_length (kind : Interruption) (valueId : Id)
    (E E' : Evaluation) (h : interrupt kind valueId E = .ok E') :
    E'.frameStack.length < E.frameStack.length := by
  unfold interrupt at h
  split at h
  · exact absurd h (by simp)
  next f0 rest heq =>
    split at h
    · exact absurd h (by simp)
    next f fs hu =>
      obtain rfl := Except.ok.inj h
      rw [heq]
      simpa using Nat.succ_lt_succ (unwindTo_length_lt kind rest f fs hu)

theorem getInstance_ok_assocGet (insts : List (Id × RuntimeObject)) (id : Id)
    (o : RuntimeObject) (h : getInstance insts id = .ok o) :
    assocGet insts id = some o := by
  unfold getInstance at h
  split at h
  · exact absurd h (by simp)
  next o' ho =>
    obtain rfl := Except.ok.inj h
    exact ho

/-- C5: executing a `CONDITIONAL_JUMP` or `IF_THEN_ELSE` whose popped
condition is neither the true id nor the false id raises an
`exception` interruption carrying a freshly allocated
`wollok.lang.BadParameterException` (first two conjuncts); and these
are the *only* instructions whose successful step freshly raises an
exception on its own (third conjunct, stated over the empty natives
registry since native code is external): every successful step
satisfying `FreshExnRaised` was executing one of them. -/
theorem vm_exception_only_bad_parameter {β : Type} (env : Env β) :
    (∀ (natives : Natives β) instrs pc locals (check : Id) s resume below insts
        nid count f fsBelow,
      instrs.get? pc = some (.CONDITIONAL_JUMP count) →
      check ≠ "" → check ≠ TRUE_ID → check ≠ FALSE_ID →
      assocGet insts (freshId nid) = none →
      unwindTo .exc below = some (f, fsBelow) →
      step env natives ⟨⟨instrs, pc, locals, check :: s, resume⟩ :: below,
          insts, nid⟩ =
        .ok ⟨{ f with
               resume := f.resume.filter (fun k => k != Interruption.exc),
               operandStack := freshId nid :: f.operandStack } :: fsBelow,
             assocSet insts (freshId nid)
               ⟨freshId nid, "wollok.lang.BadParameterException", [], none⟩,
             nid + 1⟩ ∧
      FreshExnRaised
        ⟨⟨instrs, pc, locals, check :: s, resume⟩ :: below, insts, nid⟩
        ⟨{ f with
           resume := f.resume.filter (fun k => k != Interruption.exc),
           operandStack := freshId nid :: f.operandStack } :: fsBelow,
         assocSet insts (freshId nid)
           ⟨freshId nid, "wollok.lang.BadParameterException", [], none⟩,
         nid + 1⟩) ∧
    (∀ (natives : Natives β) instrs pc locals (check : Id) s resume below insts
        nid thenH elseH f fsBelow,
      instrs.get? pc = some (.IF_THEN_ELSE thenH elseH) →
      check ≠ "" → check ≠ TRUE_ID → check ≠ FALSE_ID →
      assocGet insts (freshId nid) = none →
      unwindTo .exc below = some (f, fsBelow) →
      step env natives ⟨⟨instrs, pc, locals, check :: s, resume⟩ :: below,
          insts, nid⟩ =
        .ok ⟨{ f with
               resume := f.resume.filter (fun k => k != Interruption.exc),
               operandStack := freshId nid :: f.operandStack } :: fsBelow,
             assocSet insts (freshId nid)
               ⟨freshId nid, "wollok.lang.BadParameterException", [], none⟩,
             nid + 1⟩ ∧
      FreshExnRaised
        ⟨⟨instrs, pc, locals, check :: s, resume⟩ :: below, insts, nid⟩
        ⟨{ f with
           resume := f.resume.filter (fun k => k != Interruption.exc),
           operandStack := freshId nid :: f.operandStack } :: fsBelow,
         assocSet insts (freshId nid)
           ⟨freshId nid, "wollok.lang.BadParameterException", [], none⟩,
         nid + 1⟩) ∧
    (∀ E E', step env (fun _ => none) E = .ok E' → FreshExnRaised E E' →
      ∃ cf below i, E.frameStack = cf :: below ∧
        cf.instructions.get? cf.nextInstruction = some i ∧
        isCondCheck i = true) := by
  refine ⟨?_, ?_, ?_⟩
  · intro natives instrs pc locals check s resume below insts nid count f
      fsBelow hfetch hne hT hF hfresh hunw
    constructor
    · simp only [step, hfetch]
      simp [popOperand, hne, hT, hF, addInstance, interrupt, hunw]
    · exact ⟨hfresh, ⟨_, assocGet_assocSet_self .., rfl⟩,
        by simpa using Nat.succ_lt_succ (unwindTo_length_lt _ _ _ _ hunw)⟩
  · intro natives instrs pc locals check s resume below insts nid thenH elseH
      f fsBelow hfetch hne hT hF hfresh hunw
    constructor
    · simp only [step, hfetch]
      simp [popOperand, hne, hT, hF, addInstance, interrupt, hunw]
    · exact ⟨hfresh, ⟨_, assocGet_assocSet_self .., rfl⟩,
        by simpa using Nat.succ_lt_succ (unwindTo_length_lt _ _ _ _ hunw)⟩
  · intro E E' hstep hFE
    obtain ⟨habs, ⟨o, hgets, hmod⟩, hlen⟩ := hFE
    unfold step at hstep
    split at hstep
    · exact absurd hstep (by simp)
    next cf below hE =>
      split at hstep
      · exact absurd hstep (by simp)
      next i hi =>
        refine ⟨cf, below, i, hE, hi, ?_⟩
        cases i with
        | CONDITIONAL_JUMP count => rfl
        | IF_THEN_ELSE thenH elseH => rfl
        | LOAD name =>
          exfalso
          dsimp only at hstep
          split at hstep
          · exact absurd hstep (by simp)
          · obtain rfl := Except.ok.inj hstep
            simp [habs] at hgets
        | STORE name lookup =>
          exfalso
          dsimp only at hstep
          split at hstep
          · exact absurd hstep (by simp)
          · split at hstep <;>
              (obtain rfl := Except.ok.inj hstep; simp [habs] at hgets)
        | PUSH id =>
          exfalso
          dsimp only at hstep
          obtain rfl := Except.ok.inj hstep
          simp [habs] at hgets
        | GET name =>
          exfalso
          dsimp only at hstep
          split at hstep
          · exact absurd hstep (by simp)
          · split at hstep
            · exact absurd hstep (by simp)
            · split at hstep
              · exact absurd hstep (by simp)
              · obtain rfl := Except.ok.inj hstep
                simp [habs] at hgets
        | SET name =>
          exfalso
          dsimp only at hstep
          split at hstep
          · exact absurd hstep (by simp)
          next v s₁ hpop1 =>
            split at hstep
            · exact absurd hstep (by simp)
            next selfId s₂ hpop2 =>
              split at hstep
              · exact absurd hstep (by simp)
              next self hgi =>
                obtain rfl := Except.ok.inj hstep
                have hselfGet := getInstance_ok_assocGet _ _ _ hgi
                have hneid : selfId ≠ freshId E.nextId := by
                  intro heq
                  rw [heq, habs] at hselfGet
                  exact Option.noConfusion hselfGet
                have hgets' : assocGet (assocSet E.instances selfId
                    { self with fields := assocSet self.fields name v })
                    (freshId E.nextId) = some o := hgets
                rw [assocGet_assocSet_ne _ _ _ _ hneid, habs] at hgets'
                exact Option.noConfusion hgets'
        | SWAP =>
          exfalso
          dsimp only at hstep
          split at hstep
          · exact absurd hstep (by simp)
          · split at hstep
            · exact absurd hstep (by simp)
            · obtain rfl := Except.ok.inj hstep
              simp [habs] at hgets
        | INSTANTIATE moduleName innerValue =>
          exfalso
          dsimp only at hstep
          split at hstep
          · exact absurd hstep (by simp)
          · obtain rfl := Except.ok.inj hstep
            rw [hE] at hlen
            simp only [List.length_cons] at hlen
            omega
        | INHERITS moduleName =>
          exfalso
          dsimp only at hstep
          split at hstep
          · exact absurd hstep (by simp)
          · split at hstep
            · exact absurd hstep (by simp)
            · obtain rfl := Except.ok.inj hstep
              simp [habs] at hgets
        | CALL message arity ls =>
          exfalso
          dsimp only at hstep
          split at hstep
          · exact absurd hstep (by simp)
          · split at hstep
            · exact absurd hstep (by simp)
            · split at hstep
              · exact absurd hstep (by simp)
              · split at hstep
                · -- messageNotUnderstood fallback
                  split at hstep
                  · exact absurd hstep (by simp)
                  · split at hstep
                    · exact absurd hstep (by simp)
                    · split at hstep
                      · exact absurd hstep (by simp)
                      · split at hstep
                        · exact absurd hstep (by simp)
                        · obtain rfl := Except.ok.inj hstep
                          rw [hE] at hlen
                          simp only [List.length_cons] at hlen
                          omega
                · -- method found
                  split at hstep
                  · -- native: the empty registry yields a host failure
                    exact absurd hstep (by simp)
                  · split at hstep
                    · exact absurd hstep (by simp)
                    · split at hstep
                      · -- vararg
                        split at hstep
                        · exact absurd hstep (by simp)
                        · split at hstep
                          · exact absurd hstep (by simp)
                          · obtain rfl := Except.ok.inj hstep
                            rw [hE] at hlen
                            simp only [List.length_cons] at hlen
                            omega
                      · obtain rfl := Except.ok.inj hstep
                        rw [hE] at hlen
                        simp only [List.length_cons] at hlen
                        omega
        | INIT arity lookupStart initFields =>
          exfalso
          dsimp only at hstep
          split at hstep
          · exact absurd hstep (by simp)
          · split at hstep
            · exact absurd hstep (by simp)
            · split at hstep
              · exact absurd hstep (by simp)
              · split at hstep
                · exact absurd hstep (by simp)
                · split at hstep
                  · -- vararg constructor
                    split at hstep
                    · exact absurd hstep (by simp)
                    · split at hstep
                      · exact absurd hstep (by simp)
                      · obtain rfl := Except.ok.inj hstep
                        rw [hE] at hlen
                        simp only [List.length_cons] at hlen
                        omega
                  · obtain rfl := Except.ok.inj hstep
                    rw [hE] at hlen
                    simp only [List.length_cons] at hlen
                    omega
        | TRY_CATCH_ALWAYS body catchHandler alwaysHandler =>
          exfalso
          dsimp only at hstep
          obtain rfl := Except.ok.inj hstep
          rw [hE] at hlen
          simp only [List.length_cons] at hlen
          omega
        | INTERRUPT interruption =>
          exfalso
          dsimp only at hstep
          split at hstep
          · exact absurd hstep (by simp)
          · have := interrupt_ok_instances _ _ _ _ hstep
            rw [this] at hgets
            simp [habs] at hgets
        | RESUME_INTERRUPTION =>
          exfalso
          dsimp only at hstep
          split at hstep
          · exact absurd hstep (by simp)
          · split at hstep
            · exact absurd hstep (by simp)
            · split at hstep
              · exact absurd hstep (by simp)
              · have := interrupt_ok_instances _ _ _ _ hstep
                rw [this] at hgets
                simp [habs] at hgets

/-- Witness for `vm_exception_only_bad_parameter`: a concrete
`CONDITIONAL_JUMP` popping the non-boolean `null` id, with an
exception-resuming frame below, allocates a fresh
`BadParameterException` and unwinds to that frame. -/
theorem vm_exception_only_bad_parameter_witness :
    step trivEnv noNatives
      ⟨[⟨[.CONDITIONAL_JUMP 0], 0, [], ["null"], []⟩,
        ⟨[], 0, [], [], [.exc]⟩], [], 0⟩ =
      .ok ⟨[⟨[], 0, [], [freshId 0], []⟩],
           [(freshId 0, ⟨freshId 0, "wollok.lang.BadParameterException", [],
             none⟩)], 1⟩ ∧
    FreshExnRaised
      ⟨[⟨[.CONDITIONAL_JUMP 0], 0, [], ["null"], []⟩,
        ⟨[], 0, [], [], [.exc]⟩], [], 0⟩
      ⟨[⟨[], 0, [], [freshId 0], []⟩],
       [(freshId 0, ⟨freshId 0, "wollok.lang.BadParameterException", [],
         none⟩)], 1⟩ :=
  (vm_exception_only_bad_parameter trivEnv).1 noNatives [.CONDITIONAL_JUMP 0]
    0 [] "null" [] [] [⟨[], 0, [], [], [.exc]⟩] [] 0 0
    ⟨[], 0, [], [], [.exc]⟩ [] rfl (by decide) (by decide) (by decide) rfl rfl

/-- Witness for `call_init_self_local`: the concrete call `recv.f(x)`
leaves `self ↦ recv` in the new top frame. -/
theorem call_init_self_local_witness :
    ∃ L, resultTopLocals (step fixedEnv noNatives
        ⟨[⟨[.CALL "f" 1 none], 0, [], ["x", "recv"], []⟩],
         [("recv", ⟨"recv", "C", [], none⟩)], 0⟩) = some L ∧
      assocGet L "self" = some "recv" :=
  (call_init_self_local fixedEnv noNatives [.CALL "f" 1 none] 0 [] ["x"]
    "recv" [] [] [] [("recv", ⟨"recv", "C", [], none⟩)] 0
    ⟨"recv", "C", [], none⟩ (by decide) (by decide) rfl).1
    "f" none fixedMethod () rfl rfl rfl rfl

end Wollok
